import Mathlib

/-!
Shallow embedding of the room/session relay engine of `src/server.js`
(a WebSocket file-transfer signaling server).

Connections (`ws` objects) are modelled as natural-number handles.  The
`Map` named `this.rooms` is modelled as an association list kept in
insertion order, which is exactly the iteration order of a JavaScript
`Map`.  Each server operation is a pure function from the registry (and
the incoming message and the current clock value `now`, standing for
`Date.now()`) to the new registry together with the list of
`(connection, message)` pairs sent, in send order.

`handleMetadata` can throw a `TypeError` (when `message.name` is absent,
`message.name.slice` throws); the thrown case is modelled by returning
`none`, which the dispatcher's `try/catch` turns into an
`Invalid message format` reply, exactly as `initializeWebSocket` does.
No registry mutation precedes that throw, so returning the unchanged
registry there is faithful.
-/

namespace FileTransfer

/-- Connection handle: opaque identity of one WebSocket client. -/
abbrev Conn := Nat

/-- JavaScript values that can appear in the `size` field of a metadata
message: absent/`undefined`, a number, or a string. -/
inductive JVal where
  | undef : JVal
  | num : Int → JVal
  | str : String → JVal
deriving Repr, DecidableEq

/-- Stored metadata record.  The JS field `type` is spelled `mtype` here
(`type` is reserved in Lean).  `size` is the result of
`parseInt(message.size)`: `none` models `NaN`. -/
structure Metadata where
  name : String
  size : Option Int
  mtype : String
deriving Repr, DecidableEq

/-- One room record, as built in `createRoom`. -/
structure Room where
  sender : Conn
  receiver : Option Conn
  metadata : Option Metadata
  createdAt : Nat
  lastActivity : Nat
deriving Repr, DecidableEq

/-- The rooms `Map`, as an association list in insertion order. -/
abbrev Registry := List (String × Room)

/-- Messages the server sends to clients (`ws.send(JSON.stringify ...)`). -/
inductive ServerMsg where
  | error : String → ServerMsg
  | registered : String → ServerMsg
  | connected : String → ServerMsg
  | peerConnected : ServerMsg
  | metadataOut : String → Option Int → String → ServerMsg
  | chunkOut : Option String → ServerMsg
  | completeOut : ServerMsg
deriving Repr, DecidableEq

/-- Parsed inbound client messages, by their `type` tag.  `metadata`
carries the `name` field (`none` = absent or not a string, in which case
`name.slice` throws) and the raw `size` field.  `chunk` carries the
opaque chunk payload (`none` = absent).  `unknown` stands for any
unrecognized `type` value (the dispatcher's `default` branch). -/
inductive ClientMsg where
  | register : String → ClientMsg
  | join : String → ClientMsg
  | metadata : Option String → JVal → ClientMsg
  | chunk : Option String → ClientMsg
  | complete : ClientMsg
  | unknown : ClientMsg
deriving Repr, DecidableEq

/-- The test `room.sender === ws || room.receiver === ws` shared by
`findRoomByClient`, `getRoomCode` and `cleanupRooms`. -/
def roomHasClient (room : Room) (ws : Conn) : Bool :=
  room.sender == ws || room.receiver == some ws

/-- The room-code validation `/^\d{4}$/.test(code)`: exactly four ASCII
digits. -/
def validCode (code : String) : Bool :=
  code.length == 4 && code.toList.all (fun c => c.isDigit)

/-- `this.rooms.has(code)`. -/
def mapHas (s : Registry) (code : String) : Bool :=
  s.any (fun e => e.1 == code)

/-- `this.rooms.get(code)`. -/
def mapGet : Registry → String → Option Room
  | [], _ => none
  | (c, room) :: rest, code =>
    if c = code then some room else mapGet rest code

/-- In-place mutation of the room object stored under `code` (JS mutates
the object returned by `get`/`findRoomByClient` through its reference;
here the first entry with that key is rewritten). -/
def mapUpdate : Registry → String → (Room → Room) → Registry
  | [], _, _ => []
  | (c, room) :: rest, code, f =>
    if c = code then (c, f room) :: rest
    else (c, room) :: mapUpdate rest code f

/-- `this.rooms.delete(code)`: removes the entry with that key (a JS
`Map` holds each key at most once, so removing the first occurrence is
its semantics). -/
def mapDelete : Registry → String → Registry
  | [], _ => []
  | (c, room) :: rest, code =>
    if c = code then rest else (c, room) :: mapDelete rest code

/-- `findRoomByClient(ws)`: first room (in `Map` insertion order) whose
sender or receiver is `ws`.  The JS function returns the room object by
reference; the key is returned alongside to let callers model in-place
mutation of that same entry. -/
def findRoomByClient : Registry → Conn → Option (String × Room)
  | [], _ => none
  | (c, room) :: rest, ws =>
    if roomHasClient room ws then some (c, room)
    else findRoomByClient rest ws

/-- `getRoomCode(ws)`: a second, independent scan with the same
predicate, returning the code. -/
def getRoomCode : Registry → Conn → Option String
  | [], _ => none
  | (c, room) :: rest, ws =>
    if roomHasClient room ws then some c
    else getRoomCode rest ws

/-- Numeric value of a list of ASCII digits. -/
def digitsVal (l : List Char) : Nat :=
  l.foldl (fun acc c => acc * 10 + (c.toNat - 48)) 0

/-- `parseInt` on the modelled JS values: `undefined` gives `NaN`
(`none`); a (whole) number parses to itself; a string is trimmed of
leading spaces, an optional sign is read, then the longest leading run
of digits; no digits gives `NaN`. -/
def jsParseInt : JVal → Option Int
  | JVal.undef => none
  | JVal.num n => some n
  | JVal.str s =>
    let chars := s.toList.dropWhile (fun c => c == ' ')
    let signed : Bool × List Char :=
      match chars with
      | '-' :: r => (true, r)
      | '+' :: r => (false, r)
      | r => (false, r)
    let ds := signed.2.takeWhile (fun c => c.isDigit)
    if ds.isEmpty then none
    else some (if signed.1 then -(digitsVal ds : Int) else (digitsVal ds : Int))

/-- The enforced size threshold, `200 * 1024 * 1024` bytes. -/
def sizeLimit : Int := 200 * 1024 * 1024

/-- The check `fileSize > 200 * 1024 * 1024`.  When `fileSize` is `NaN`
(`none`), the JS comparison is false. -/
def sizeTooBig : Option Int → Bool
  | some n => n > sizeLimit
  | none => false

/-- `createRoom(ws, code)`. -/
def createRoom (s : Registry) (ws : Conn) (code : String) (now : Nat) :
    Registry × List (Conn × ServerMsg) :=
  if !validCode code then
    (s, [(ws, ServerMsg.error "Invalid room code format")])
  else if mapHas s code then
    (s, [(ws, ServerMsg.error "Room already exists")])
  else
    (s ++ [(code,
      { sender := ws, receiver := none, metadata := none,
        createdAt := now, lastActivity := now })],
     [(ws, ServerMsg.registered code)])

/-- `joinRoom(ws, code)`. -/
def joinRoom (s : Registry) (ws : Conn) (code : String) (now : Nat) :
    Registry × List (Conn × ServerMsg) :=
  if !validCode code then
    (s, [(ws, ServerMsg.error "Invalid room code format")])
  else
    match mapGet s code with
    | none => (s, [(ws, ServerMsg.error "Room does not exist or has expired")])
    | some room =>
      if room.receiver.isSome then
        (s, [(ws, ServerMsg.error "Room is already occupied")])
      else
        (mapUpdate s code (fun r => { r with receiver := some ws, lastActivity := now }),
         [(room.sender, ServerMsg.peerConnected), (ws, ServerMsg.connected code)])

/-- `handleMetadata(ws, message)`.  Returns `none` when the handler
throws (absent `name` reaching `message.name.slice`); the stored `type`
field is the message's dispatch tag `message.type`, i.e. the literal
string `"metadata"`.  The source binds the stored record and the new
registry to locals (`room.metadata = {...}` then the forward); they are
inlined here: the record is stored unconditionally, the forward happens
only when a receiver is present. -/
def handleMetadata (s : Registry) (ws : Conn) (name : Option String)
    (size : JVal) (now : Nat) :
    Option (Registry × List (Conn × ServerMsg)) :=
  match findRoomByClient s ws with
  | none => some (s, [])
  | some (code, room) =>
    if sizeTooBig (jsParseInt size) then
      some (s, [(ws, ServerMsg.error "File too large (max 500MB)")])
    else
      match name with
      | none => none
      | some nm =>
        some (mapUpdate s code (fun r =>
               { r with
                 metadata := some { name := nm.take 256, size := jsParseInt size,
                                    mtype := "metadata" },
                 lastActivity := now }),
              match room.receiver with
              | some recv =>
                [(recv, ServerMsg.metadataOut (nm.take 256) (jsParseInt size) "metadata")]
              | none => [])

/-- `forwardChunk(ws, message)`. -/
def forwardChunk (s : Registry) (ws : Conn) (chunk : Option String) (now : Nat) :
    Registry × List (Conn × ServerMsg) :=
  match findRoomByClient s ws with
  | none => (s, [])
  | some (code, room) =>
    match room.receiver with
    | none => (s, [])
    | some recv =>
      (mapUpdate s code (fun r => { r with lastActivity := now }),
       [(recv, ServerMsg.chunkOut chunk)])

/-- `handleTransferComplete(ws, message)`: sends `complete` to the
receiver, then `this.rooms.delete(this.getRoomCode(ws))` (a second
connection-to-code scan; `Map.delete(null)` removes nothing). -/
def handleTransferComplete (s : Registry) (ws : Conn) :
    Registry × List (Conn × ServerMsg) :=
  match findRoomByClient s ws with
  | none => (s, [])
  | some (_, room) =>
    match room.receiver with
    | none => (s, [])
    | some recv =>
      (match getRoomCode s ws with
       | some c => mapDelete s c
       | none => s,
       [(recv, ServerMsg.completeOut)])

/-- The notification block of `cleanupRooms`: `otherClient` is
`room.sender === ws ? room.receiver : room.sender`, and it is messaged
only when non-null. -/
def peerNotice (room : Room) (ws : Conn) : List (Conn × ServerMsg) :=
  match (if room.sender == ws then room.receiver else some room.sender) with
  | some other => [(other, ServerMsg.error "Peer disconnected")]
  | none => []

/-- `cleanupRooms(ws)`: scan in insertion order; at the first room
containing `ws`, notify the other occupant (when non-null), delete that
room, and `break`. -/
def cleanupRooms : Registry → Conn → Registry × List (Conn × ServerMsg)
  | [], _ => ([], [])
  | (c, room) :: rest, ws =>
    if roomHasClient room ws then
      (rest, peerNotice room ws)
    else
      let tail := cleanupRooms rest ws
      ((c, room) :: tail.1, tail.2)

/-- `handleMessage(ws, message)`: the `switch` on `message.type`.
`none` propagates a throw out of a handler into the caller's `catch`. -/
def handleMessage (s : Registry) (ws : Conn) (m : ClientMsg) (now : Nat) :
    Option (Registry × List (Conn × ServerMsg)) :=
  match m with
  | ClientMsg.register code => some (createRoom s ws code now)
  | ClientMsg.join code => some (joinRoom s ws code now)
  | ClientMsg.metadata name size => handleMetadata s ws name size now
  | ClientMsg.chunk c => some (forwardChunk s ws c now)
  | ClientMsg.complete => some (handleTransferComplete s ws)
  | ClientMsg.unknown => some (s, [(ws, ServerMsg.error "Unknown message type")])

/-- The `ws.on('message')` handler: `raw = none` models text that
`JSON.parse` rejects; a throw escaping `handleMessage` is caught by the
same `catch`, which replies `Invalid message format`.  (The one throwing
path mutates nothing and sends nothing before throwing, so the registry
is returned unchanged.) -/
def onMessage (s : Registry) (ws : Conn) (raw : Option ClientMsg) (now : Nat) :
    Registry × List (Conn × ServerMsg) :=
  match raw with
  | none => (s, [(ws, ServerMsg.error "Invalid message format")])
  | some m =>
    match handleMessage s ws m now with
    | some result => result
    | none => (s, [(ws, ServerMsg.error "Invalid message format")])

/-- One transport event delivered to the server. -/
inductive Event where
  | msg : Conn → Option ClientMsg → Nat → Event
  | close : Conn → Event
deriving Repr, DecidableEq

/-- Registry after one event. -/
def step (s : Registry) : Event → Registry
  | Event.msg ws raw now => (onMessage s ws raw now).1
  | Event.close ws => (cleanupRooms s ws).1

/-- Registry after a sequence of events. -/
def run : Registry → List Event → Registry
  | s, [] => s
  | s, e :: es => run (step s e) es

/-- A registry reachable from the empty initial `Map` by some event
sequence. -/
def Reachable (s : Registry) : Prop := ∃ events, run [] events = s

/-- Number of live rooms in which `ws` occupies a role. -/
def roomsOf (s : Registry) (ws : Conn) : Nat :=
  s.countP (fun e => roomHasClient e.2 ws)

/-- The registry's codes are pairwise distinct (true of every real
`Map` state). -/
def UniqueKeys (s : Registry) : Prop := (s.map Prod.fst).Nodup

instance (s : Registry) : Decidable (UniqueKeys s) :=
  inferInstanceAs (Decidable (s.map Prod.fst).Nodup)

/-- Removal of the first room containing `ws` (the room `cleanupRooms`
deletes, and the single-lookup deletion a `complete` on the resolved
room object would perform). -/
def deleteFirstOccupant : Registry → Conn → Registry
  | [], _ => []
  | (c, room) :: rest, ws =>
    if roomHasClient room ws then rest
    else (c, room) :: deleteFirstOccupant rest ws

/-- Single-lookup variant of `handleTransferComplete`, following the
spec's words: delete the already-resolved room instead of re-deriving
its code by a second scan.  Used only to state the refinement
equivalence. -/
def handleTransferCompleteSingle (s : Registry) (ws : Conn) :
    Registry × List (Conn × ServerMsg) :=
  match findRoomByClient s ws with
  | none => (s, [])
  | some (_, room) =>
    match room.receiver with
    | none => (s, [])
    | some recv => (deleteFirstOccupant s ws, [(recv, ServerMsg.completeOut)])

/-! ### Helper lemmas about the registry scans -/

/-- Both connection-to-room scans walk the registry in the same order
with the same predicate, so `getRoomCode` is the key component of
`findRoomByClient`'s result. -/
theorem getRoomCode_eq_map_fst (s : Registry) (ws : Conn) :
    getRoomCode s ws = (findRoomByClient s ws).map Prod.fst := by
  induction s with
  | nil => rfl
  | cons e rest ih =>
    obtain ⟨c, room⟩ := e
    cases h : roomHasClient room ws <;>
      simp [getRoomCode, findRoomByClient, h, ih]

/-- The resolved entry is an entry of the registry. -/
theorem findRoomByClient_mem {s : Registry} {ws : Conn} {x : String × Room}
    (h : findRoomByClient s ws = some x) : x ∈ s := by
  induction s with
  | nil => simp [findRoomByClient] at h
  | cons e rest ih =>
    obtain ⟨c, room⟩ := e
    rw [findRoomByClient] at h
    cases hc : roomHasClient room ws
    · rw [hc] at h
      simp only [Bool.false_eq_true, if_false] at h
      exact List.mem_cons_of_mem _ (ih h)
    · rw [hc] at h
      simp only [if_true] at h
      simp only [Option.some.injEq] at h
      subst h
      exact List.mem_cons_self _ _

/-- The resolved room does contain the connection. -/
theorem findRoomByClient_hasClient {s : Registry} {ws : Conn} {code : String}
    {room : Room} (h : findRoomByClient s ws = some (code, room)) :
    roomHasClient room ws = true := by
  induction s with
  | nil => simp [findRoomByClient] at h
  | cons e rest ih =>
    obtain ⟨c, r⟩ := e
    rw [findRoomByClient] at h
    cases hc : roomHasClient r ws
    · rw [hc] at h
      simp only [Bool.false_eq_true, if_false] at h
      exact ih h
    · rw [hc] at h
      simp only [if_true, Option.some.injEq, Prod.mk.injEq] at h
      obtain ⟨-, rfl⟩ := h
      exact hc

/-- Reading back the key just updated: `mapGet` after `mapUpdate` at the
same key applies the update to the old value. -/
theorem mapGet_mapUpdate_self (s : Registry) (code : String) (f : Room → Room) :
    mapGet (mapUpdate s code f) code = (mapGet s code).map f := by
  induction s with
  | nil => rfl
  | cons e rest ih =>
    obtain ⟨c, room⟩ := e
    by_cases h : c = code
    · subst h
      simp [mapGet, mapUpdate]
    · simp [mapGet, mapUpdate, h, ih]

/-- In a registry with pairwise-distinct codes, the entry resolved by
connection also resolves by its code. -/
theorem mapGet_of_findRoomByClient {s : Registry} {ws : Conn} {code : String}
    {room : Room} (hu : UniqueKeys s)
    (h : findRoomByClient s ws = some (code, room)) :
    mapGet s code = some room := by
  induction s with
  | nil => simp [findRoomByClient] at h
  | cons e rest ih =>
    obtain ⟨c, r⟩ := e
    rw [UniqueKeys, List.map_cons, List.nodup_cons] at hu
    obtain ⟨hnotin, hurest⟩ := hu
    rw [findRoomByClient] at h
    cases hc : roomHasClient r ws
    · rw [hc] at h
      simp only [Bool.false_eq_true, if_false] at h
      have hmem : code ∈ rest.map Prod.fst :=
        List.mem_map_of_mem Prod.fst (findRoomByClient_mem h)
      have hne : c ≠ code := fun he => hnotin (he ▸ hmem)
      rw [mapGet, if_neg hne]
      exact ih hurest h
    · rw [hc] at h
      simp only [if_true, Option.some.injEq, Prod.mk.injEq] at h
      obtain ⟨rfl, rfl⟩ := h
      simp [mapGet]

/-- A connection occupies no room exactly when the scan resolves
nothing. -/
theorem roomsOf_eq_zero_iff (s : Registry) (ws : Conn) :
    roomsOf s ws = 0 ↔ findRoomByClient s ws = none := by
  induction s with
  | nil => simp [roomsOf, findRoomByClient]
  | cons e rest ih =>
    obtain ⟨c, r⟩ := e
    cases hc : roomHasClient r ws
    · simpa [roomsOf, findRoomByClient, hc, List.countP_cons] using ih
    · simp [roomsOf, findRoomByClient, hc, List.countP_cons]

/-- In a registry with pairwise-distinct codes, deleting the resolved
entry's code deletes exactly the entry the scan resolved. -/
theorem mapDelete_eq_deleteFirstOccupant {s : Registry} {ws : Conn}
    {code : String} {room : Room} (hu : UniqueKeys s)
    (h : findRoomByClient s ws = some (code, room)) :
    mapDelete s code = deleteFirstOccupant s ws := by
  induction s with
  | nil => simp [findRoomByClient] at h
  | cons e rest ih =>
    obtain ⟨c, r⟩ := e
    rw [UniqueKeys, List.map_cons, List.nodup_cons] at hu
    obtain ⟨hnotin, hurest⟩ := hu
    rw [findRoomByClient] at h
    cases hc : roomHasClient r ws
    · rw [hc] at h
      simp only [Bool.false_eq_true, if_false] at h
      have hmem : code ∈ rest.map Prod.fst :=
        List.mem_map_of_mem Prod.fst (findRoomByClient_mem h)
      have hne : c ≠ code := fun he => hnotin (he ▸ hmem)
      rw [mapDelete, if_neg hne, deleteFirstOccupant, hc]
      simp only [Bool.false_eq_true, if_false]
      rw [ih hurest h]
    · rw [hc] at h
      simp only [if_true, Option.some.injEq, Prod.mk.injEq] at h
      obtain ⟨rfl, rfl⟩ := h
      rw [mapDelete, if_pos rfl, deleteFirstOccupant, hc]
      simp

/-- A member room containing `v` makes `v`'s occupancy count positive. -/
theorem roomsOf_pos_of_mem {s : Registry} {v : Conn} {x : String × Room}
    (hx : x ∈ s) (hv : roomHasClient x.2 v = true) : 0 < roomsOf s v := by
  rw [roomsOf, List.countP_pos_iff]
  exact ⟨x, hx, hv⟩

/-- Deleting the code of the resolved room removes the only room of any
connection `v` that occupied just that room. -/
theorem findRoomByClient_mapDelete_none {s : Registry} {ws v : Conn}
    {code : String} {room : Room} (hu : UniqueKeys s)
    (h : findRoomByClient s ws = some (code, room))
    (hv : roomHasClient room v = true) (h1 : roomsOf s v = 1) :
    findRoomByClient (mapDelete s code) v = none := by
  induction s with
  | nil => simp [findRoomByClient] at h
  | cons e rest ih =>
    obtain ⟨c, r⟩ := e
    rw [UniqueKeys, List.map_cons, List.nodup_cons] at hu
    obtain ⟨hnotin, hurest⟩ := hu
    rw [findRoomByClient] at h
    cases hc : roomHasClient r ws
    · rw [hc] at h
      simp only [Bool.false_eq_true, if_false] at h
      have hmem : code ∈ rest.map Prod.fst :=
        List.mem_map_of_mem Prod.fst (findRoomByClient_mem h)
      have hne : c ≠ code := fun he => hnotin (he ▸ hmem)
      rw [mapDelete, if_neg hne]
      have hrestpos : 0 < roomsOf rest v :=
        roomsOf_pos_of_mem (findRoomByClient_mem h) hv
      have hcv : roomHasClient r v = false := by
        by_contra hcv
        rw [Bool.not_eq_false] at hcv
        rw [roomsOf, List.countP_cons, hcv, if_pos rfl] at h1
        rw [roomsOf] at hrestpos
        omega
      rw [findRoomByClient, hcv]
      simp only [Bool.false_eq_true, if_false]
      refine ih hurest h ?_
      rw [roomsOf, List.countP_cons, hcv] at h1
      simpa [roomsOf] using h1
    · rw [hc] at h
      simp only [if_true, Option.some.injEq, Prod.mk.injEq] at h
      obtain ⟨rfl, rfl⟩ := h
      rw [mapDelete, if_pos rfl]
      rw [← roomsOf_eq_zero_iff]
      rw [roomsOf, List.countP_cons, hv] at h1
      simpa [roomsOf] using h1

/-! ### Helper lemmas about `cleanupRooms` -/

/-- A close event from a connection occupying no room leaves the
registry untouched and sends nothing. -/
theorem cleanupRooms_of_not_found {s : Registry} {ws : Conn}
    (h : findRoomByClient s ws = none) : cleanupRooms s ws = (s, []) := by
  induction s with
  | nil => rfl
  | cons e rest ih =>
    obtain ⟨c, r⟩ := e
    rw [findRoomByClient] at h
    cases hc : roomHasClient r ws
    · rw [hc] at h
      simp only [Bool.false_eq_true, if_false] at h
      rw [cleanupRooms, hc]
      simp only [Bool.false_eq_true, if_false, ih h]
    · rw [hc] at h
      simp at h

/-- A close event from a connection occupying a room deletes exactly the
first such room and sends the notification computed from it. -/
theorem cleanupRooms_of_found {s : Registry} {ws : Conn} {code : String}
    {room : Room} (h : findRoomByClient s ws = some (code, room)) :
    cleanupRooms s ws = (deleteFirstOccupant s ws, peerNotice room ws) := by
  induction s with
  | nil => simp [findRoomByClient] at h
  | cons e rest ih =>
    obtain ⟨c, r⟩ := e
    rw [findRoomByClient] at h
    cases hc : roomHasClient r ws
    · rw [hc] at h
      simp only [Bool.false_eq_true, if_false] at h
      rw [cleanupRooms, hc, deleteFirstOccupant, hc]
      simp only [Bool.false_eq_true, if_false, ih h]
    · rw [hc] at h
      simp only [if_true, Option.some.injEq, Prod.mk.injEq] at h
      obtain ⟨-, rfl⟩ := h
      rw [cleanupRooms, hc, deleteFirstOccupant, hc]
      simp

/-- Deleting the first occupied room shortens the registry by exactly
one entry. -/
theorem deleteFirstOccupant_length {s : Registry} {ws : Conn}
    {x : String × Room} (h : findRoomByClient s ws = some x) :
    s.length = (deleteFirstOccupant s ws).length + 1 := by
  induction s with
  | nil => simp [findRoomByClient] at h
  | cons e rest ih =>
    obtain ⟨c, r⟩ := e
    rw [findRoomByClient] at h
    cases hc : roomHasClient r ws
    · rw [hc] at h
      simp only [Bool.false_eq_true, if_false] at h
      rw [deleteFirstOccupant, hc]
      simp only [Bool.false_eq_true, if_false, List.length_cons, ih h]
    · rw [deleteFirstOccupant, hc]
      simp

/-! ### Helper lemmas about `handleMetadata` -/

/-- Oversize rejection: the error reply and the untouched registry. -/
theorem handleMetadata_reject {s : Registry} {ws : Conn} {name : Option String}
    {size : JVal} {now : Nat} {code : String} {room : Room}
    (h : findRoomByClient s ws = some (code, room))
    (hbig : sizeTooBig (jsParseInt size) = true) :
    handleMetadata s ws name size now =
      some (s, [(ws, ServerMsg.error "File too large (max 500MB)")]) := by
  rw [handleMetadata, h, hbig]
  rfl

/-- Acceptance: the stored record and the forward to the receiver when
one is present. -/
theorem handleMetadata_accept {s : Registry} {ws : Conn} {nm : String}
    {size : JVal} {now : Nat} {code : String} {room : Room}
    (h : findRoomByClient s ws = some (code, room))
    (hok : sizeTooBig (jsParseInt size) = false) :
    handleMetadata s ws (some nm) size now =
      some (mapUpdate s code (fun r =>
              { r with
                metadata := some { name := nm.take 256, size := jsParseInt size,
                                   mtype := "metadata" },
                lastActivity := now }),
            match room.receiver with
            | some recv =>
              [(recv, ServerMsg.metadataOut (nm.take 256) (jsParseInt size) "metadata")]
            | none => []) := by
  rw [handleMetadata, h, hok]
  rfl

/-- The stored record read back at the room's code. -/
theorem handleMetadata_stored {s : Registry} {ws : Conn} {size : JVal}
    {now : Nat} {code : String} {room : Room} (hu : UniqueKeys s)
    (h : findRoomByClient s ws = some (code, room)) (nm : String) :
    mapGet (mapUpdate s code (fun r =>
      { r with
        metadata := some { name := nm.take 256, size := jsParseInt size,
                           mtype := "metadata" },
        lastActivity := now })) code =
    some { room with
           metadata := some { name := nm.take 256, size := jsParseInt size,
                              mtype := "metadata" },
           lastActivity := now } := by
  rw [mapGet_mapUpdate_self, mapGet_of_findRoomByClient hu h]
  rfl

/-- A metadata message from a connection occupying no room is silently
dropped. -/
theorem handleMetadata_noroom {s : Registry} {ws : Conn}
    {name : Option String} {size : JVal} {now : Nat}
    (h : findRoomByClient s ws = none) :
    handleMetadata s ws name size now = some (s, []) := by
  rw [handleMetadata, h]

/-- The one throwing path: `handleMetadata` throws exactly when the
connection occupies a room, the size check passes, and the `name` field
is absent. -/
theorem handleMetadata_none_iff {s : Registry} {ws : Conn}
    {name : Option String} {size : JVal} {now : Nat} :
    handleMetadata s ws name size now = none ↔
    name = none ∧ (findRoomByClient s ws).isSome = true ∧
      sizeTooBig (jsParseInt size) = false := by
  cases hf : findRoomByClient s ws with
  | none =>
    rw [handleMetadata, hf]
    simp
  | some cr =>
    obtain ⟨code, room⟩ := cr
    cases hbig : sizeTooBig (jsParseInt size)
    · cases name with
      | none =>
        rw [handleMetadata, hf, hbig]
        simp
      | some nm =>
        rw [handleMetadata, hf, hbig]
        simp
    · rw [handleMetadata, hf, hbig]
      simp

/-! ### Helper lemmas about the dispatcher -/

/-- Two single-element error replies with different texts differ. -/
theorem single_error_ne {c1 c2 : Conn} {s1 s2 : String} (h : s1 ≠ s2) :
    ([(c1, ServerMsg.error s1)] : List (Conn × ServerMsg)) ≠
      [(c2, ServerMsg.error s2)] := by
  intro he
  simp only [List.cons.injEq, and_true, Prod.mk.injEq, ServerMsg.error.injEq] at he
  exact h he.2

/-- `handleMessage` throws exactly when `handleMetadata` does: on a
`metadata` message with no `name`, from a connection occupying a room,
whose size passes the limit check. -/
theorem handleMessage_none_iff {s : Registry} {ws : Conn} {m : ClientMsg}
    {now : Nat} :
    handleMessage s ws m now = none ↔
    ∃ size, m = ClientMsg.metadata none size ∧
      (findRoomByClient s ws).isSome = true ∧
      sizeTooBig (jsParseInt size) = false := by
  cases m with
  | metadata name size =>
    rw [handleMessage, handleMetadata_none_iff]
    constructor
    · rintro ⟨rfl, hsome, hok⟩
      exact ⟨size, rfl, hsome, hok⟩
    · rintro ⟨size2, heq, hsome, hok⟩
      obtain ⟨rfl, rfl⟩ : name = none ∧ size = size2 := by
        simpa [ClientMsg.metadata.injEq] using heq
      exact ⟨rfl, hsome, hok⟩
  | register code => simp [handleMessage]
  | join code => simp [handleMessage]
  | chunk c => simp [handleMessage]
  | complete => simp [handleMessage]
  | unknown => simp [handleMessage]

/-- No handler that finishes without throwing ever replies with the
`Invalid message format` text: that message comes only from the
dispatcher's `catch`. -/
theorem handleMessage_msgs_ne_invalid {s : Registry} {ws : Conn}
    {m : ClientMsg} {now : Nat} {r : Registry × List (Conn × ServerMsg)}
    (h : handleMessage s ws m now = some r) (c : Conn) :
    r.2 ≠ [(c, ServerMsg.error "Invalid message format")] := by
  cases m with
  | register code =>
    simp only [handleMessage, Option.some.injEq] at h
    subst h
    rw [createRoom]
    cases hv : validCode code <;> cases hh : mapHas s code <;> simp [hv, hh]
  | join code =>
    simp only [handleMessage, Option.some.injEq] at h
    subst h
    rw [joinRoom]
    cases hv : validCode code
    · simp [hv]
    · cases hg : mapGet s code with
      | none => simp [hv, hg]
      | some room =>
        cases hr : room.receiver <;> simp [hv, hg, hr]
  | metadata name size =>
    rw [handleMessage] at h
    cases hf : findRoomByClient s ws with
    | none =>
      rw [handleMetadata_noroom hf] at h
      simp only [Option.some.injEq] at h
      subst h
      simp
    | some cr =>
      obtain ⟨code, room⟩ := cr
      cases hbig : sizeTooBig (jsParseInt size)
      · cases name with
        | none =>
          have hth : handleMetadata s ws none size now = none :=
            handleMetadata_none_iff.mpr ⟨rfl, by rw [hf]; rfl, hbig⟩
          rw [hth] at h
          exact Option.noConfusion h
        | some nm =>
          rw [handleMetadata_accept hf hbig] at h
          simp only [Option.some.injEq] at h
          subst h
          cases hr : room.receiver <;> simp [hr]
      · rw [handleMetadata_reject hf hbig] at h
        simp only [Option.some.injEq] at h
        subst h
        exact single_error_ne (by decide)
  | chunk ch =>
    simp only [handleMessage, Option.some.injEq] at h
    subst h
    rw [forwardChunk]
    cases hf : findRoomByClient s ws with
    | none => simp
    | some cr =>
      obtain ⟨code, room⟩ := cr
      cases hr : room.receiver <;> simp [hr]
  | complete =>
    simp only [handleMessage, Option.some.injEq] at h
    subst h
    rw [handleTransferComplete]
    cases hf : findRoomByClient s ws with
    | none => simp
    | some cr =>
      obtain ⟨code, room⟩ := cr
      cases hr : room.receiver <;> simp [hr]
  | unknown =>
    simp only [handleMessage, Option.some.injEq] at h
    subst h
    exact single_error_ne (by decide)

/-- `joinRoom` on a valid code that resolves to a room reduces to the
receiver test. -/
theorem joinRoom_found {s : Registry} {ws : Conn} {code : String}
    {now : Nat} {room : Room} (hv : validCode code = true)
    (hg : mapGet s code = some room) :
    joinRoom s ws code now =
      if room.receiver.isSome then
        (s, [(ws, ServerMsg.error "Room is already occupied")])
      else
        (mapUpdate s code (fun r =>
           { r with receiver := some ws, lastActivity := now }),
         [(room.sender, ServerMsg.peerConnected),
          (ws, ServerMsg.connected code)]) := by
  rw [joinRoom, hv, hg]
  rfl

/-- `forwardChunk` from a connection whose scan resolves a room reduces
to the receiver test. -/
theorem forwardChunk_found {s : Registry} {ws : Conn} {code : String}
    {room : Room} {ch : Option String} {now : Nat}
    (hf : findRoomByClient s ws = some (code, room)) :
    forwardChunk s ws ch now =
      match room.receiver with
      | none => (s, [])
      | some recv =>
        (mapUpdate s code (fun r => { r with lastActivity := now }),
         [(recv, ServerMsg.chunkOut ch)]) := by
  rw [forwardChunk, hf]

/-- `handleTransferComplete` from a connection whose scan resolves a
room reduces to the receiver test and the second scan. -/
theorem handleTransferComplete_found {s : Registry} {ws : Conn}
    {code : String} {room : Room}
    (hf : findRoomByClient s ws = some (code, room)) :
    handleTransferComplete s ws =
      match room.receiver with
      | none => (s, [])
      | some recv =>
        (match getRoomCode s ws with
         | some c => mapDelete s c
         | none => s,
         [(recv, ServerMsg.completeOut)]) := by
  rw [handleTransferComplete, hf]

/-- The single-lookup variant, after a resolved scan, reduces to the
receiver test. -/
theorem handleTransferCompleteSingle_found {s : Registry} {ws : Conn}
    {code : String} {room : Room}
    (hf : findRoomByClient s ws = some (code, room)) :
    handleTransferCompleteSingle s ws =
      match room.receiver with
      | none => (s, [])
      | some recv => (deleteFirstOccupant s ws, [(recv, ServerMsg.completeOut)]) := by
  rw [handleTransferCompleteSingle, hf]

/-! ### Claim theorems -/

/-- C2: for every code string that does not match the 4-digit format,
both `register` and `join` send the `Invalid room code format` error
reply to the requesting connection and leave the room registry
completely unchanged (no room created, no existing room mutated). -/
theorem invalid_code_rejected_registry_unchanged
    (s : Registry) (ws : Conn) (code : String) (now : Nat)
    (h : validCode code = false) :
    createRoom s ws code now =
      (s, [(ws, ServerMsg.error "Invalid room code format")]) ∧
    joinRoom s ws code now =
      (s, [(ws, ServerMsg.error "Invalid room code format")]) := by
  constructor
  · rw [createRoom, h]
    rfl
  · rw [joinRoom, h]
    rfl

/-- C2 witness at the concrete codes `"12a4"` (register) and `"123"`
(join), against a nonempty registry. -/
theorem invalid_code_rejected_registry_unchanged_witness :
    validCode "12a4" = false ∧ validCode "123" = false ∧
    createRoom [("1234", ⟨5, none, none, 1, 1⟩)] 0 "12a4" 3 =
      ([("1234", ⟨5, none, none, 1, 1⟩)],
       [(0, ServerMsg.error "Invalid room code format")]) ∧
    joinRoom [("1234", ⟨5, none, none, 1, 1⟩)] 0 "123" 3 =
      ([("1234", ⟨5, none, none, 1, 1⟩)],
       [(0, ServerMsg.error "Invalid room code format")]) :=
  ⟨by decide, by decide,
   (invalid_code_rejected_registry_unchanged
     [("1234", ⟨5, none, none, 1, 1⟩)] 0 "12a4" 3 (by decide)).1,
   (invalid_code_rejected_registry_unchanged
     [("1234", ⟨5, none, none, 1, 1⟩)] 0 "123" 3 (by decide)).2⟩

/-- C3: for every valid 4-digit code already mapping to a live room,
`register` from any connection fails with the `Room already exists`
error and performs no mutation at all: the registry (hence the existing
room's sender, receiver, metadata, createdAt and lastActivity) is
returned unchanged and no room is added. -/
theorem duplicate_code_register_rejected
    (s : Registry) (ws : Conn) (code : String) (now : Nat)
    (hv : validCode code = true) (hh : mapHas s code = true) :
    createRoom s ws code now =
      (s, [(ws, ServerMsg.error "Room already exists")]) := by
  rw [createRoom, hv, hh]
  rfl

/-- C3 witness: a second `register` of `"1234"` from another connection
leaves the original room intact. -/
theorem duplicate_code_register_rejected_witness :
    validCode "1234" = true ∧
    mapHas [("1234", ⟨5, none, none, 1, 1⟩)] "1234" = true ∧
    createRoom [("1234", ⟨5, none, none, 1, 1⟩)] 9 "1234" 7 =
      ([("1234", ⟨5, none, none, 1, 1⟩)],
       [(9, ServerMsg.error "Room already exists")]) :=
  ⟨by decide, by decide,
   duplicate_code_register_rejected
     [("1234", ⟨5, none, none, 1, 1⟩)] 9 "1234" 7 (by decide) (by decide)⟩

/-- C4: joining a room whose receiver is set fails with the
`Room is already occupied` error and never overwrites the receiver
(registry unchanged); joining a room whose receiver is unset stores the
joining connection as receiver, updates `lastActivity`, and sends
`peerConnected` to the sender and `connected` (with the code) to the
joining connection. -/
theorem join_full_rejected_empty_succeeds
    (s : Registry) (ws : Conn) (code : String) (now : Nat) (room : Room)
    (hv : validCode code = true) (hg : mapGet s code = some room) :
    (room.receiver.isSome = true →
      joinRoom s ws code now =
        (s, [(ws, ServerMsg.error "Room is already occupied")])) ∧
    (room.receiver = none →
      joinRoom s ws code now =
        (mapUpdate s code (fun r =>
           { r with receiver := some ws, lastActivity := now }),
         [(room.sender, ServerMsg.peerConnected), (ws, ServerMsg.connected code)]) ∧
      mapGet (joinRoom s ws code now).1 code =
        some { room with receiver := some ws, lastActivity := now }) := by
  constructor
  · intro hr
    rw [joinRoom_found hv hg, hr]
    rfl
  · intro hr
    have hj : joinRoom s ws code now =
        (mapUpdate s code (fun r =>
           { r with receiver := some ws, lastActivity := now }),
         [(room.sender, ServerMsg.peerConnected),
          (ws, ServerMsg.connected code)]) := by
      rw [joinRoom_found hv hg, hr]
      rfl
    refine ⟨hj, ?_⟩
    rw [hj]
    rw [mapGet_mapUpdate_self, hg]
    rfl

/-- C4 witness: a join of the full room `"1234"` is rejected; a join of
the empty room `"5678"` pairs it. -/
theorem join_full_rejected_empty_succeeds_witness :
    validCode "1234" = true ∧
    mapGet [("1234", ⟨0, some 1, none, 1, 1⟩)] "1234" =
      some ⟨0, some 1, none, 1, 1⟩ ∧
    joinRoom [("1234", ⟨0, some 1, none, 1, 1⟩)] 2 "1234" 9 =
      ([("1234", ⟨0, some 1, none, 1, 1⟩)],
       [(2, ServerMsg.error "Room is already occupied")]) ∧
    validCode "5678" = true ∧
    mapGet [("5678", ⟨0, none, none, 1, 1⟩)] "5678" =
      some ⟨0, none, none, 1, 1⟩ ∧
    joinRoom [("5678", ⟨0, none, none, 1, 1⟩)] 2 "5678" 9 =
      ([("5678", ⟨0, some 2, none, 1, 9⟩)],
       [(0, ServerMsg.peerConnected), (2, ServerMsg.connected "5678")]) := by
  have h1 := (join_full_rejected_empty_succeeds
    [("1234", ⟨0, some 1, none, 1, 1⟩)] 2 "1234" 9 ⟨0, some 1, none, 1, 1⟩
    (by decide) (by decide)).1 (by decide)
  have h2 := (join_full_rejected_empty_succeeds
    [("5678", ⟨0, none, none, 1, 1⟩)] 2 "5678" 9 ⟨0, none, none, 1, 1⟩
    (by decide) (by decide)).2 rfl
  refine ⟨by decide, by decide, h1, by decide, by decide, ?_⟩
  rw [h2.1]
  decide

/-- C7: on a connection-close event, if the closing connection occupies
no room the registry and outbox are untouched; if it occupies a room,
exactly the first such room is removed (one entry fewer, all other
entries intact) and the notification computed from that room —
one `Peer disconnected` error to the other occupant when present,
nothing otherwise — is sent. -/
theorem close_cleanup_behavior (s : Registry) (ws : Conn) :
    (findRoomByClient s ws = none → cleanupRooms s ws = (s, [])) ∧
    (∀ code room, findRoomByClient s ws = some (code, room) →
      cleanupRooms s ws = (deleteFirstOccupant s ws, peerNotice room ws) ∧
      s.length = (deleteFirstOccupant s ws).length + 1) := by
  refine ⟨cleanupRooms_of_not_found, ?_⟩
  intro code room h
  exact ⟨cleanupRooms_of_found h, deleteFirstOccupant_length h⟩

/-- C7 witness: closing the paired sender notifies the receiver once and
removes the room; closing a connection with no room is a no-op. -/
theorem close_cleanup_behavior_witness :
    findRoomByClient [("1234", ⟨0, some 1, none, 1, 2⟩)] 0 =
      some ("1234", ⟨0, some 1, none, 1, 2⟩) ∧
    cleanupRooms [("1234", ⟨0, some 1, none, 1, 2⟩)] 0 =
      ([], [(1, ServerMsg.error "Peer disconnected")]) ∧
    findRoomByClient [("1234", ⟨0, some 1, none, 1, 2⟩)] 5 = none ∧
    cleanupRooms [("1234", ⟨0, some 1, none, 1, 2⟩)] 5 =
      ([("1234", ⟨0, some 1, none, 1, 2⟩)], []) := by
  have h1 := (close_cleanup_behavior [("1234", ⟨0, some 1, none, 1, 2⟩)] 0).2
    "1234" ⟨0, some 1, none, 1, 2⟩ (by decide)
  have h2 := (close_cleanup_behavior [("1234", ⟨0, some 1, none, 1, 2⟩)] 5).1
    (by decide)
  refine ⟨by decide, ?_, by decide, h2⟩
  rw [h1.1]
  decide

/-- C10: `metadata`, `chunk` and `complete` from a room's receiver are
processed exactly as sender-originated ones, because room resolution
matches either occupant: a chunk from the receiver is relayed back to
the receiver itself, a metadata message from the receiver overwrites the
stored metadata and is forwarded to the receiver itself, and a complete
from the receiver sends `complete` to the receiver and deletes the
room. -/
theorem receiver_originated_messages
    (s : Registry) (b : Conn) (code : String) (room : Room)
    (ch : Option String) (nm : String) (size : JVal) (now : Nat)
    (hu : UniqueKeys s)
    (hf : findRoomByClient s b = some (code, room))
    (hr : room.receiver = some b) :
    forwardChunk s b ch now =
      (mapUpdate s code (fun r => { r with lastActivity := now }),
       [(b, ServerMsg.chunkOut ch)]) ∧
    (sizeTooBig (jsParseInt size) = false →
      handleMetadata s b (some nm) size now =
        some (mapUpdate s code (fun r =>
                { r with
                  metadata := some { name := nm.take 256, size := jsParseInt size,
                                     mtype := "metadata" },
                  lastActivity := now }),
              [(b, ServerMsg.metadataOut (nm.take 256) (jsParseInt size) "metadata")]) ∧
      mapGet (mapUpdate s code (fun r =>
                { r with
                  metadata := some { name := nm.take 256, size := jsParseInt size,
                                     mtype := "metadata" },
                  lastActivity := now })) code =
        some { room with
               metadata := some { name := nm.take 256, size := jsParseInt size,
                                  mtype := "metadata" },
               lastActivity := now }) ∧
    handleTransferComplete s b = (mapDelete s code, [(b, ServerMsg.completeOut)]) := by
  have hg : getRoomCode s b = some code := by
    rw [getRoomCode_eq_map_fst, hf]
    rfl
  refine ⟨?_, ?_, ?_⟩
  · rw [forwardChunk_found hf, hr]
  · intro hok
    constructor
    · rw [handleMetadata_accept hf hok, hr]
    · exact handleMetadata_stored hu hf nm
  · rw [handleTransferComplete_found hf, hr, hg]

set_option maxRecDepth 8000 in
/-- C10 witness: connection 1, the receiver of room `"5555"`, sends
chunk, metadata and complete; each reply goes back to connection 1
itself, and complete deletes the room. -/
theorem receiver_originated_messages_witness :
    UniqueKeys [("5555", ⟨0, some 1, none, 1, 1⟩)] ∧
    findRoomByClient [("5555", ⟨0, some 1, none, 1, 1⟩)] 1 =
      some ("5555", ⟨0, some 1, none, 1, 1⟩) ∧
    forwardChunk [("5555", ⟨0, some 1, none, 1, 1⟩)] 1 (some "abcd") 6 =
      ([("5555", ⟨0, some 1, none, 1, 6⟩)], [(1, ServerMsg.chunkOut (some "abcd"))]) ∧
    handleMetadata [("5555", ⟨0, some 1, none, 1, 1⟩)] 1 (some "x") (JVal.num 10) 6 =
      some ([("5555", ⟨0, some 1, some ⟨"x", some 10, "metadata"⟩, 1, 6⟩)],
            [(1, ServerMsg.metadataOut "x" (some 10) "metadata")]) ∧
    handleTransferComplete [("5555", ⟨0, some 1, none, 1, 1⟩)] 1 =
      ([], [(1, ServerMsg.completeOut)]) := by
  have h := receiver_originated_messages [("5555", ⟨0, some 1, none, 1, 1⟩)] 1
    "5555" ⟨0, some 1, none, 1, 1⟩ (some "abcd") "x" (JVal.num 10) 6
    (by decide) (by decide) rfl
  have hm := h.2.1 (by decide)
  refine ⟨by decide, by decide, ?_, ?_, ?_⟩
  · rw [h.1]
    rfl
  · rw [hm.1]
    rfl
  · rw [h.2.2]
    rfl

/-- C1 counterexample: the state in which connection 0 is the sender of
both rooms `"1111"` and `"2222"` is reachable (by two `register`
messages), so a connection can occupy roles in two live rooms at once,
contradicting the claimed invariant. -/
theorem one_room_per_connection_fails :
    Reachable [("1111", ⟨0, none, none, 1, 1⟩), ("2222", ⟨0, none, none, 2, 2⟩)] ∧
    roomsOf [("1111", ⟨0, none, none, 1, 1⟩), ("2222", ⟨0, none, none, 2, 2⟩)] 0 = 2 := by
  constructor
  · exact ⟨[Event.msg 0 (some (ClientMsg.register "1111")) 1,
            Event.msg 0 (some (ClientMsg.register "2222")) 2], by decide⟩
  · decide

/-- C1 (amended): the server does not enforce the one-room-per-
connection invariant: from any state in which a connection already
occupies at least one room, a `register` with a fresh valid code
succeeds and leaves that connection occupying one more room. -/
theorem register_grants_second_role
    (s : Registry) (ws : Conn) (code : String) (now : Nat)
    (hv : validCode code = true) (hh : mapHas s code = false)
    (_hocc : 1 ≤ roomsOf s ws) :
    roomsOf (createRoom s ws code now).1 ws = roomsOf s ws + 1 := by
  have hc : createRoom s ws code now =
      (s ++ [(code, ⟨ws, none, none, now, now⟩)],
       [(ws, ServerMsg.registered code)]) := by
    rw [createRoom, hv, hh]
    rfl
  rw [hc]
  simp [roomsOf, List.countP_append, List.countP_cons, roomHasClient]

/-- C1 (amended) witness: connection 0, already sender of `"1111"`,
registers `"2222"` and then occupies two rooms. -/
theorem register_grants_second_role_witness :
    validCode "2222" = true ∧
    mapHas [("1111", ⟨0, none, none, 1, 1⟩)] "2222" = false ∧
    1 ≤ roomsOf [("1111", ⟨0, none, none, 1, 1⟩)] 0 ∧
    roomsOf (createRoom [("1111", ⟨0, none, none, 1, 1⟩)] 0 "2222" 2).1 0 =
      roomsOf [("1111", ⟨0, none, none, 1, 1⟩)] 0 + 1 :=
  ⟨by decide, by decide, by decide,
   register_grants_second_role [("1111", ⟨0, none, none, 1, 1⟩)] 0 "2222" 2
     (by decide) (by decide) (by decide)⟩

/-- C5 counterexample: a metadata message with size 1000 (far below the
limit) but no `name` field, from the occupant of room `"1234"`, is not
accepted and stored: the handler throws, an `Invalid message format`
reply is sent, and the room's metadata stays `none`. -/
theorem size_below_limit_not_stored :
    (1000 : Int) ≤ sizeLimit ∧
    onMessage [("1234", ⟨0, none, none, 1, 1⟩)] 0
        (some (ClientMsg.metadata none (JVal.num 1000))) 5 =
      ([("1234", ⟨0, none, none, 1, 1⟩)],
       [(0, ServerMsg.error "Invalid message format")]) ∧
    mapGet (onMessage [("1234", ⟨0, none, none, 1, 1⟩)] 0
        (some (ClientMsg.metadata none (JVal.num 1000))) 5).1 "1234" =
      some ⟨0, none, none, 1, 1⟩ := by
  exact ⟨by decide, by decide, by decide⟩

/-- C5 (amended): the enforced metadata size limit is exactly
`200*1024*1024` bytes: a metadata message from a connection occupying a
room whose size parses to more than that gets the `File too large (max
500MB)` reply (the text says 500MB, the threshold is 200 MiB) and the
registry — hence the room's metadata and lastActivity — is unchanged; a
size at or below the limit passes the check and, provided the message's
`name` field is a string, the metadata is stored. -/
theorem metadata_size_limit_enforced
    (s : Registry) (ws : Conn) (name : Option String) (size : JVal)
    (now : Nat) (code : String) (room : Room) (hu : UniqueKeys s)
    (hf : findRoomByClient s ws = some (code, room)) :
    sizeLimit = 200 * 1024 * 1024 ∧
    (∀ n : Int, jsParseInt size = some n → n > 200 * 1024 * 1024 →
      handleMetadata s ws name size now =
        some (s, [(ws, ServerMsg.error "File too large (max 500MB)")])) ∧
    (∀ nm : String, name = some nm → sizeTooBig (jsParseInt size) = false →
      handleMetadata s ws name size now =
        some (mapUpdate s code (fun r =>
                { r with
                  metadata := some { name := nm.take 256, size := jsParseInt size,
                                     mtype := "metadata" },
                  lastActivity := now }),
              match room.receiver with
              | some recv =>
                [(recv, ServerMsg.metadataOut (nm.take 256) (jsParseInt size) "metadata")]
              | none => []) ∧
      mapGet (mapUpdate s code (fun r =>
                { r with
                  metadata := some { name := nm.take 256, size := jsParseInt size,
                                     mtype := "metadata" },
                  lastActivity := now })) code =
        some { room with
               metadata := some { name := nm.take 256, size := jsParseInt size,
                                  mtype := "metadata" },
               lastActivity := now }) := by
  refine ⟨rfl, ?_, ?_⟩
  · intro n hn hgt
    apply handleMetadata_reject hf
    rw [hn, sizeTooBig, decide_eq_true_eq, sizeLimit]
    exact hgt
  · intro nm hnm hok
    subst hnm
    exact ⟨handleMetadata_accept hf hok, handleMetadata_stored hu hf nm⟩

set_option maxRecDepth 8000 in
/-- C5 (amended) witness: in the paired room `"1234"`, a metadata of
size exactly `200*1024*1024` is stored and forwarded, while size
`200*1024*1024 + 1` is rejected with the 500MB-texted error and the
registry is unchanged. -/
theorem metadata_size_limit_enforced_witness :
    UniqueKeys [("1234", ⟨0, some 1, none, 1, 1⟩)] ∧
    findRoomByClient [("1234", ⟨0, some 1, none, 1, 1⟩)] 0 =
      some ("1234", ⟨0, some 1, none, 1, 1⟩) ∧
    jsParseInt (JVal.num 209715201) = some 209715201 ∧
    handleMetadata [("1234", ⟨0, some 1, none, 1, 1⟩)] 0 (some "f")
        (JVal.num 209715201) 7 =
      some ([("1234", ⟨0, some 1, none, 1, 1⟩)],
            [(0, ServerMsg.error "File too large (max 500MB)")]) ∧
    handleMetadata [("1234", ⟨0, some 1, none, 1, 1⟩)] 0 (some "f")
        (JVal.num 209715200) 7 =
      some ([("1234", ⟨0, some 1, some ⟨"f", some 209715200, "metadata"⟩, 1, 7⟩)],
            [(1, ServerMsg.metadataOut "f" (some 209715200) "metadata")]) := by
  have h := metadata_size_limit_enforced [("1234", ⟨0, some 1, none, 1, 1⟩)] 0
    (some "f") (JVal.num 209715201) 7 "1234" ⟨0, some 1, none, 1, 1⟩
    (by decide) (by decide)
  have h2 := metadata_size_limit_enforced [("1234", ⟨0, some 1, none, 1, 1⟩)] 0
    (some "f") (JVal.num 209715200) 7 "1234" ⟨0, some 1, none, 1, 1⟩
    (by decide) (by decide)
  have ha := (h2.2.2 "f" rfl (by decide)).1
  refine ⟨by decide, by decide, rfl, h.2.1 209715201 rfl (by decide), ?_⟩
  rw [ha]
  rfl

/-- C6 counterexample: connection 0 registers both `"1111"` and
`"2222"`, connection 1 joins `"1111"`; this state is reachable.  A
`complete` from 0 then removes `"1111"` and messages 1, yet
`findRoomByClient` still resolves room `"2222"` for former occupant 0 —
contradicting the claim that after `complete` neither former occupant
resolves any room. -/
theorem complete_leaves_other_room_resolvable :
    Reachable [("1111", ⟨0, some 1, none, 1, 3⟩), ("2222", ⟨0, none, none, 2, 2⟩)] ∧
    handleTransferComplete
        [("1111", ⟨0, some 1, none, 1, 3⟩), ("2222", ⟨0, none, none, 2, 2⟩)] 0 =
      ([("2222", ⟨0, none, none, 2, 2⟩)], [(1, ServerMsg.completeOut)]) ∧
    findRoomByClient [("2222", ⟨0, none, none, 2, 2⟩)] 0 =
      some ("2222", ⟨0, none, none, 2, 2⟩) := by
  refine ⟨⟨[Event.msg 0 (some (ClientMsg.register "1111")) 1,
            Event.msg 0 (some (ClientMsg.register "2222")) 2,
            Event.msg 1 (some (ClientMsg.join "1111")) 3], by decide⟩,
          by decide, by decide⟩

/-- C6 (amended): for the room resolved for the completing occupant,
when its receiver is set, `complete` sends `complete` to the receiver
and deletes exactly that room; the two-lookup implementation (re-deriving
the code via `getRoomCode`) equals the single-lookup one that deletes
the resolved room, in any registry with pairwise-distinct codes; and a
former occupant for whom that room was the only one no longer resolves
any room — an occupant holding a role in another room still does. -/
theorem complete_removes_resolved_room
    (s : Registry) (ws : Conn) (code : String) (room : Room) (recv : Conn)
    (hu : UniqueKeys s) (hf : findRoomByClient s ws = some (code, room))
    (hr : room.receiver = some recv) :
    handleTransferComplete s ws = (mapDelete s code, [(recv, ServerMsg.completeOut)]) ∧
    handleTransferComplete s ws = handleTransferCompleteSingle s ws ∧
    (roomsOf s ws = 1 → findRoomByClient (mapDelete s code) ws = none) ∧
    (roomsOf s recv = 1 → findRoomByClient (mapDelete s code) recv = none) := by
  have hg : getRoomCode s ws = some code := by
    rw [getRoomCode_eq_map_fst, hf]
    rfl
  have h1 : handleTransferComplete s ws =
      (mapDelete s code, [(recv, ServerMsg.completeOut)]) := by
    rw [handleTransferComplete_found hf, hr, hg]
  refine ⟨h1, ?_, ?_, ?_⟩
  · rw [h1, handleTransferCompleteSingle_found hf, hr,
      mapDelete_eq_deleteFirstOccupant hu hf]
  · intro h1c
    exact findRoomByClient_mapDelete_none hu hf (findRoomByClient_hasClient hf) h1c
  · intro h1c
    have hv : roomHasClient room recv = true := by
      rw [roomHasClient, hr]
      simp
    exact findRoomByClient_mapDelete_none hu hf hv h1c

/-- C6 (amended) witness: in the single paired room `"1234"`, a
`complete` from the sender removes the room, agrees with the
single-lookup variant, and neither former occupant resolves a room
afterwards. -/
theorem complete_removes_resolved_room_witness :
    UniqueKeys [("1234", ⟨0, some 1, none, 1, 2⟩)] ∧
    findRoomByClient [("1234", ⟨0, some 1, none, 1, 2⟩)] 0 =
      some ("1234", ⟨0, some 1, none, 1, 2⟩) ∧
    handleTransferComplete [("1234", ⟨0, some 1, none, 1, 2⟩)] 0 =
      ([], [(1, ServerMsg.completeOut)]) ∧
    handleTransferComplete [("1234", ⟨0, some 1, none, 1, 2⟩)] 0 =
      handleTransferCompleteSingle [("1234", ⟨0, some 1, none, 1, 2⟩)] 0 ∧
    findRoomByClient (mapDelete [("1234", ⟨0, some 1, none, 1, 2⟩)] "1234") 0 = none ∧
    findRoomByClient (mapDelete [("1234", ⟨0, some 1, none, 1, 2⟩)] "1234") 1 = none := by
  have h := complete_removes_resolved_room [("1234", ⟨0, some 1, none, 1, 2⟩)] 0
    "1234" ⟨0, some 1, none, 1, 2⟩ 1 (by decide) (by decide) rfl
  refine ⟨by decide, by decide, ?_, h.2.1, h.2.2.1 (by decide), h.2.2.2 (by decide)⟩
  rw [h.1]
  decide

/-- C8 counterexample: the message `{type:'metadata', size:undefined}`
parses successfully, yet from connection 7 — which occupies room
`"4321"` — it produces an `Invalid message format` reply (its missing
`name` makes the handler throw into the dispatcher's catch), refuting
the claimed "only unparseable input" direction. -/
theorem parsed_message_gets_invalid_format :
    onMessage [("4321", ⟨7, none, none, 1, 1⟩)] 7
        (some (ClientMsg.metadata none JVal.undef)) 9 =
      ([("4321", ⟨7, none, none, 1, 1⟩)],
       [(7, ServerMsg.error "Invalid message format")]) := by
  decide

/-- C8 (amended): the `Invalid message format` reply (with the registry
untouched) is produced exactly when the inbound text is unparseable, or
when it parses to a metadata message with no `name`, from a connection
occupying a room, whose size passes the limit check (the handler then
throws into the same catch); every other successfully parsed message
never produces it. -/
theorem invalid_format_characterization
    (s : Registry) (ws : Conn) (raw : Option ClientMsg) (now : Nat) :
    onMessage s ws raw now = (s, [(ws, ServerMsg.error "Invalid message format")]) ↔
    (raw = none ∨ ∃ size, raw = some (ClientMsg.metadata none size) ∧
      (findRoomByClient s ws).isSome = true ∧
      sizeTooBig (jsParseInt size) = false) := by
  constructor
  · intro h
    cases raw with
    | none => exact Or.inl rfl
    | some m =>
      right
      cases hm : handleMessage s ws m now with
      | none =>
        obtain ⟨size, rfl, hsome, hok⟩ := handleMessage_none_iff.mp hm
        exact ⟨size, rfl, hsome, hok⟩
      | some r =>
        have he : onMessage s ws (some m) now = r := by
          rw [onMessage, hm]
        rw [he] at h
        exact absurd (congrArg Prod.snd h)
          (handleMessage_msgs_ne_invalid hm ws)
  · intro h
    rcases h with rfl | ⟨size, rfl, hsome, hok⟩
    · rfl
    · have hth : handleMessage s ws (ClientMsg.metadata none size) now = none :=
        handleMessage_none_iff.mpr ⟨size, rfl, hsome, hok⟩
      rw [onMessage, hth]

/-- C8 (amended) witness: unparseable input draws the reply, and a
well-formed `register` never does (both read off the
characterization). -/
theorem invalid_format_characterization_witness :
    onMessage [] 4 none 2 = ([], [(4, ServerMsg.error "Invalid message format")]) ∧
    ¬ onMessage [] 4 (some (ClientMsg.register "9876")) 2 =
        ([], [(4, ServerMsg.error "Invalid message format")]) := by
  constructor
  · exact (invalid_format_characterization [] 4 none 2).mpr (Or.inl rfl)
  · intro h
    rcases (invalid_format_characterization [] 4
        (some (ClientMsg.register "9876")) 2).mp h with h2 | ⟨size, h2, -, -⟩
    · exact absurd h2 (by decide)
    · simp at h2

/-- C9 counterexample: a metadata message whose size is missing (parseInt
gives NaN) from connection 3, which occupies room `"9999"` with receiver
4 present, is not stored and not forwarded: its missing name makes the
handler throw, so an `Invalid message format` reply goes back and the
room keeps `metadata = none`. -/
theorem missing_size_metadata_not_stored :
    jsParseInt JVal.undef = none ∧
    onMessage [("9999", ⟨3, some 4, none, 1, 2⟩)] 3
        (some (ClientMsg.metadata none JVal.undef)) 5 =
      ([("9999", ⟨3, some 4, none, 1, 2⟩)],
       [(3, ServerMsg.error "Invalid message format")]) ∧
    mapGet (onMessage [("9999", ⟨3, some 4, none, 1, 2⟩)] 3
        (some (ClientMsg.metadata none JVal.undef)) 5).1 "9999" =
      some ⟨3, some 4, none, 1, 2⟩ := by
  exact ⟨rfl, by decide, by decide⟩

/-- C9 (amended): the size-limit check rejects exactly the sizes parsing
to a number strictly greater than `200*1024*1024`; a missing or
non-numeric size (NaN) and any non-positive or below-limit number pass
it, and — provided the message carries a name string — the metadata is
then stored with that NaN (`none`) or negative size value and forwarded
to the receiver when one is present. -/
theorem nan_negative_sizes_accepted
    (s : Registry) (ws : Conn) (nm : String) (size : JVal) (now : Nat)
    (code : String) (room : Room) (hu : UniqueKeys s)
    (hf : findRoomByClient s ws = some (code, room))
    (hok : sizeTooBig (jsParseInt size) = false) :
    (∀ fs : Option Int, sizeTooBig fs = true ↔
      ∃ n : Int, fs = some n ∧ n > 200 * 1024 * 1024) ∧
    sizeTooBig none = false ∧
    (∀ n : Int, n ≤ 200 * 1024 * 1024 → sizeTooBig (some n) = false) ∧
    handleMetadata s ws (some nm) size now =
      some (mapUpdate s code (fun r =>
              { r with
                metadata := some { name := nm.take 256, size := jsParseInt size,
                                   mtype := "metadata" },
                lastActivity := now }),
            match room.receiver with
            | some recv =>
              [(recv, ServerMsg.metadataOut (nm.take 256) (jsParseInt size) "metadata")]
            | none => []) ∧
    mapGet (mapUpdate s code (fun r =>
              { r with
                metadata := some { name := nm.take 256, size := jsParseInt size,
                                   mtype := "metadata" },
                lastActivity := now })) code =
      some { room with
             metadata := some { name := nm.take 256, size := jsParseInt size,
                                mtype := "metadata" },
             lastActivity := now } := by
  refine ⟨?_, rfl, ?_, handleMetadata_accept hf hok, handleMetadata_stored hu hf nm⟩
  · intro fs
    cases fs with
    | none => simp [sizeTooBig]
    | some n =>
      rw [sizeTooBig, decide_eq_true_eq, sizeLimit]
      constructor
      · intro hgt
        exact ⟨n, rfl, hgt⟩
      · rintro ⟨m, hm, hgt⟩
        obtain rfl : n = m := by simpa using hm
        exact hgt
  · intro n hn
    rw [sizeTooBig, decide_eq_false_iff_not, sizeLimit]
    omega

set_option maxRecDepth 8000 in
/-- C9 (amended) witness: a metadata with missing size (NaN) and name
`"data.bin"` from sender 2 of the paired room `"7777"` is stored with
size `none` and forwarded to receiver 9; a negative size passes the
check. -/
theorem nan_negative_sizes_accepted_witness :
    UniqueKeys [("7777", ⟨2, some 9, none, 1, 1⟩)] ∧
    findRoomByClient [("7777", ⟨2, some 9, none, 1, 1⟩)] 2 =
      some ("7777", ⟨2, some 9, none, 1, 1⟩) ∧
    sizeTooBig (jsParseInt JVal.undef) = false ∧
    sizeTooBig (some (-5)) = false ∧
    handleMetadata [("7777", ⟨2, some 9, none, 1, 1⟩)] 2 (some "data.bin")
        JVal.undef 4 =
      some ([("7777", ⟨2, some 9, some ⟨"data.bin", none, "metadata"⟩, 1, 4⟩)],
            [(9, ServerMsg.metadataOut "data.bin" none "metadata")]) := by
  have h := nan_negative_sizes_accepted [("7777", ⟨2, some 9, none, 1, 1⟩)] 2
    "data.bin" JVal.undef 4 "7777" ⟨2, some 9, none, 1, 1⟩
    (by decide) (by decide) rfl
  refine ⟨by decide, by decide, rfl, h.2.2.1 (-5) (by decide), ?_⟩
  rw [h.2.2.2.1]
  rfl

end FileTransfer
